import Mathlib

/-!
Shallow embedding of the SpurStore support-bot backend (TypeScript) in Lean 4.

The embedded code is the chat-processing core of the repository:
 - `ChatService` (src/spur-backend/src/services/chat.service.ts): validation,
   conversation resolution, message persistence, history read-back, fallback
   handling, health report.
 - `LLMService` (same file, second compilation unit): store-knowledge block,
   prompt assembly, message truncation, provider-error classification,
   empty-response handling.
 - `ChatController.healthCheck` and the validation middleware (Express layer).

Modelling conventions:
 - The Prisma store is a `Store` record: lists of conversations and messages in
   insertion order, a fresh-id counter and a logical clock.  Timestamps are
   naturals drawn from the clock, which advances on every write, so `createdAt`
   ascending order coincides with insertion order; Prisma's
   `orderBy createdAt asc` is therefore the identity on the stored order.
 - The SQL unique index `conversations_sessionId_key` (prisma migration) is
   modelled inside `conversationCreate`: creating a conversation whose
   sessionId already exists fails, as the insert would in SQLite.
 - The non-deterministic minted session id `session_${Date.now()}_${random}`
   is a parameter `minted` of the operations that may create a conversation.
 - The LLM network call is an oracle parameter `gemini : Except String String`:
   `.error e` is a provider exception with message `e`, `.ok txt` is a raw
   response whose `text` field is `txt` (possibly empty).
 - JavaScript string operations (`trim`, `replace(/c/g, rep)`,
   `substring(0, n)`, `includes`) are re-implemented over `List Char`.
 - TypeScript `throw` of an `Error` with a message is `Except String`;
   `processMessage` also returns the store it leaves behind, because the code
   runs without a transaction and a throw keeps the writes made before it.
-/

deriving instance DecidableEq for Except

/-- Message sender enum (`USER | AI` in the Prisma schema). -/
inductive Sender where
  | user
  | ai
deriving DecidableEq

/-- Conversation row: { id, sessionId, createdAt, updatedAt, metadata }. -/
structure Conversation where
  id : Nat
  sessionId : String
  createdAt : Nat
  updatedAt : Nat
  metadata : String
deriving DecidableEq

/-- Message row: { id, conversationId, sender, text, createdAt }. -/
structure Message where
  id : Nat
  conversationId : Nat
  sender : Sender
  text : String
  createdAt : Nat
deriving DecidableEq

/-- The `MessageHistory` interface of llm.service.ts. -/
structure MessageHistory where
  sender : Sender
  text : String
  createdAt : Nat
deriving DecidableEq

/-- The persistence store: rows in insertion order plus id/clock counters. -/
structure Store where
  conversations : List Conversation
  messages : List Message
  nextId : Nat
  now : Nat
deriving DecidableEq

/-- The `ChatRequest` interface: { message, sessionId? }. -/
structure ChatRequest where
  message : String
  sessionId : Option String
deriving DecidableEq

/-- The `ChatResponse` interface: { reply, sessionId, messageId, conversationId }. -/
structure ChatResponse where
  reply : String
  sessionId : String
  messageId : Nat
  conversationId : Nat
deriving DecidableEq

/-- The `LLMResponse` interface (tokensUsed omitted: never set by the code). -/
structure LLMResponse where
  content : String
  provider : String
  model : String
deriving DecidableEq

/-- JavaScript whitespace as used by `trim` (ASCII portion). -/
def isWhitespaceChar (c : Char) : Bool :=
  c = ' ' || c = '\t' || c = '\n' || c = '\r'

/-- JavaScript `s.trim()`: drop leading and trailing whitespace. -/
def jsTrim (s : String) : String :=
  String.mk (((s.data.dropWhile isWhitespaceChar).reverse.dropWhile
    isWhitespaceChar).reverse)

/-- JavaScript `s.substring(0, n)`. -/
def jsSubstringTo (s : String) (n : Nat) : String :=
  String.mk (s.data.take n)

/-- JavaScript `s.replace(/c/g, rep)` for a single-character pattern. -/
def replaceAllChar (s : String) (c : Char) (rep : String) : String :=
  String.join (s.data.map (fun ch => if ch = c then rep else String.mk [ch]))

/-- Helper for `includesSubstr`: does `pat` occur inside the list? -/
def containsSub (pat : List Char) : List Char → Bool
  | [] => pat.isEmpty
  | c :: rest => pat.isPrefixOf (c :: rest) || containsSub pat rest

/-- JavaScript `s.includes(pat)`. -/
def includesSubstr (s pat : String) : Bool :=
  containsSub pat.data s.data

/-- The projection `msg => ({ sender, text, createdAt })` applied by
`getConversationHistory` to each stored message. -/
def msgToHistory (m : Message) : MessageHistory :=
  { sender := m.sender, text := m.text, createdAt := m.createdAt }

namespace LLMService

/-- Default provider (`process.env.LLM_PROVIDER || 'gemini'`). -/
def provider : String := "gemini"

/-- Default model (`process.env.GEMINI_MODEL || 'gemini-2.0-flash-exp'`). -/
def geminiModel : String := "gemini-2.0-flash-exp"

/-- The static knowledge/persona block returned by `getStoreKnowledge`. -/
def getStoreKnowledge : String :=
  "You are a helpful support agent for \"SpurStore\", a small e-commerce store.\n\nSTORE KNOWLEDGE BASE:\n\n1. SHIPPING POLICY:\n   - Free shipping on orders over $50\n   - Standard shipping: 3-5 business days ($4.99)\n   - Express shipping: 1-2 business days ($9.99)\n   - We ship to USA, Canada, UK, Australia, and EU countries\n\n2. RETURN & REFUND POLICY:\n   - 30-day return policy\n   - Items must be in original condition\n   - Refunds processed within 5-7 business days\n   - Free returns for defective items\n\n3. SUPPORT HOURS:\n   - Monday-Friday: 9 AM - 6 PM EST\n   - Saturday: 10 AM - 4 PM EST\n   - Sunday: Closed\n   - Email: support@spurstore.com\n\n4. PRODUCTS:\n   - Smartphones, laptops, headphones, smartwatches\n   - 1-year manufacturer warranty\n   - Price match guarantee for 7 days\n\n5. PAYMENT OPTIONS:\n   - Credit/Debit Cards\n   - PayPal, Apple Pay, Google Pay\n\nINSTRUCTIONS:\n- Identify as \"SpurStore Support Agent\"\n- Be concise and helpful (2-3 sentences usually)\n- If unsure: \"I'll connect you with a human agent during business hours\"\n- Never make promises beyond stated policies"

/-- Transcript label: `msg.sender === 'USER' ? 'Customer' : 'Support Agent'`. -/
def roleLabel : Sender → String
  | .user => "Customer"
  | .ai => "Support Agent"

/-- JavaScript `history.slice(-5)` (n = 5): the last up-to-n entries. -/
def sliceLast (n : Nat) (l : List MessageHistory) : List MessageHistory :=
  l.drop (l.length - n)

/-- The `buildPrompt` method: knowledge block, then the rendered transcript of
the last 5 history entries (only when history is non-empty), then the final
instruction line embedding the current question. -/
def buildPrompt (history : List MessageHistory) (userMessage : String) : String :=
  let conversationContext :=
    if history.length > 0 then
      (sliceLast 5 history).foldl
        (fun acc msg => acc ++ roleLabel msg.sender ++ ": " ++ msg.text ++ "\n")
        "\n\nCONVERSATION HISTORY:\n"
    else ""
  getStoreKnowledge ++ conversationContext ++
    "\n\nCURRENT CUSTOMER QUESTION: \"" ++ userMessage ++
    "\"\n\nProvide a helpful response based ONLY on the store knowledge above."

/-- The truncation applied by `generateReply` before building the prompt:
`userMessage.length > 2000 ? userMessage.substring(0, 2000) + '...' : userMessage`. -/
def truncateMessage (userMessage : String) : String :=
  if userMessage.length > 2000 then jsSubstringTo userMessage 2000 ++ "..."
  else userMessage

/-- The prompt that `generateReply` sends for a given history and raw message
(truncation then `buildPrompt`, lines 291-295 of the service file). -/
def promptFor (history : List MessageHistory) (userMessage : String) : String :=
  buildPrompt history (truncateMessage userMessage)

/-- The `generateWithGemini` method over the network oracle: a provider
exception is re-thrown, an empty `response.text` raises
`Empty response from Gemini`, otherwise the text is wrapped in an `LLMResponse`. -/
def generateWithGemini (gemini : Except String String) : Except String LLMResponse :=
  match gemini with
  | .error e => .error e
  | .ok txt =>
    if txt = "" then .error "Empty response from Gemini"
    else .ok { content := txt, provider := "gemini", model := geminiModel }

/-- The catch-block of `generateReply`: classify the failure message into the
three user-facing buckets (auth/key, rate/quota, everything else). -/
def classifyFailure (m : String) : String :=
  if includesSubstr m "API key" || includesSubstr m "authentication" then
    "AI service is currently unavailable. Please try again later."
  else if includesSubstr m "rate limit" || includesSubstr m "quota" then
    "We're experiencing high demand. Please wait a moment."
  else
    "Unable to generate response. Please try again."

/-- The `generateReply` method: validate, truncate, build the prompt, call the
backend; any failure inside the try-block is re-thrown with its classified
user-facing message. -/
def generateReply (userMessage : String) (history : List MessageHistory)
    (gemini : Except String String) : Except String LLMResponse :=
  let inner : Except String LLMResponse :=
    if (jsTrim userMessage).length = 0 then .error "Message cannot be empty"
    else
      let trimmedMessage := truncateMessage userMessage
      let _prompt := buildPrompt history trimmedMessage
      if provider = "gemini" then generateWithGemini gemini
      else .error ("Unsupported provider: " ++ provider)
  match inner with
  | .ok r => .ok r
  | .error e => .error (classifyFailure e)

end LLMService

namespace ChatService

/-- The `validateMessage` method: empty-after-trim message first, then the
5000-character cap on the raw length. -/
def validateMessage (message : String) : Except String Unit :=
  if (jsTrim message).length = 0 then .error "Message cannot be empty"
  else if message.length > 5000 then
    .error "Message is too long. Please limit to 5000 characters."
  else .ok ()

/-- Opaque stand-in for the `JSON.stringify({startedAt, llmProvider})` metadata
blob written on conversation creation; its content is never inspected. -/
def conversationMetadataText : String := "startedAt llmProvider gemini"

/-- Prisma `conversation.findUnique({ where: { sessionId } })`. -/
def findUniqueConversation (st : Store) (sid : String) : Option Conversation :=
  st.conversations.find? (fun c => c.sessionId = sid)

/-- Prisma `conversation.create`: the unique index on sessionId (migration
`conversations_sessionId_key`) makes the insert fail when the sessionId is
already taken; otherwise a row is appended and the clock and id advance. -/
def conversationCreate (st : Store) (sid : String) :
    Except String (Conversation × Store) :=
  if st.conversations.any (fun c => c.sessionId = sid) then
    .error "Unique constraint failed on sessionId"
  else
    let c : Conversation :=
      { id := st.nextId, sessionId := sid, createdAt := st.now,
        updatedAt := st.now, metadata := conversationMetadataText }
    .ok (c, { conversations := st.conversations ++ [c], messages := st.messages,
              nextId := st.nextId + 1, now := st.now + 1 })

/-- JavaScript truthiness of the optional sessionId: `undefined` and the empty
string are falsy. -/
def truthyString : Option String → Option String
  | some s => if s = "" then none else some s
  | none => none

/-- The `getOrCreateConversation` method: when a truthy sessionId is supplied,
look it up and reuse a hit; otherwise create with
`sessionId || session_${Date.now()}_${random}` — the supplied id when truthy,
else the minted one (passed here as the parameter `minted`). -/
def getOrCreateConversation (st : Store) (sessionId : Option String)
    (minted : String) : Except String (Conversation × Store) :=
  match truthyString sessionId with
  | some sid =>
    match findUniqueConversation st sid with
    | some c => .ok (c, st)
    | none => conversationCreate st sid
  | none => conversationCreate st minted

/-- Prisma `message.create`: append a row stamped with the current clock. -/
def messageCreate (st : Store) (convId : Nat) (sender : Sender) (text : String) :
    Message × Store :=
  let m : Message :=
    { id := st.nextId, conversationId := convId, sender := sender,
      text := text, createdAt := st.now }
  (m, { st with messages := st.messages ++ [m], nextId := st.nextId + 1,
                now := st.now + 1 })

/-- All messages of one conversation, in stored (createdAt-ascending) order. -/
def conversationMessages (st : Store) (convId : Nat) : List Message :=
  st.messages.filter (fun m => m.conversationId = convId)

/-- The `getConversationHistory` method: prisma
`findMany({ where: { conversationId }, orderBy: { createdAt: 'asc' }, take: 10 })`
then a projection to `MessageHistory`.  With ascending order, `take: 10`
returns the FIRST up-to-10 rows of the conversation. -/
def getConversationHistory (st : Store) (convId : Nat) : List MessageHistory :=
  ((conversationMessages st convId).take 10).map msgToHistory

/-- Prisma `conversation.update({ where: { id }, data: { updatedAt: new Date() } })`. -/
def conversationUpdateTimestamp (st : Store) (convId : Nat) : Store :=
  { st with
    conversations := st.conversations.map
      (fun c => if c.id = convId then { c with updatedAt := st.now } else c),
    now := st.now + 1 }

/-- The fixed fallback reply substituted when the LLM call throws. -/
def fallbackText : String :=
  "I apologize, but I'm having trouble accessing our knowledge base. Please try again in a moment, or contact support@spurstore.com for immediate assistance."

/-- The fallback `LLMResponse` built in the catch-block of `processMessage`. -/
def fallbackResponse : LLMResponse :=
  { content := fallbackText, provider := "fallback", model := "none" }

/-- The try/catch around the `generateReply` call: its value on success, the
fallback response on any throw. -/
def llmResponseOrFallback (r : Except String LLMResponse) : LLMResponse :=
  match r with
  | .ok x => x
  | .error _ => fallbackResponse

/-- The `processMessage` method.  Returns the thrown error or the response,
TOGETHER with the store left behind: the code runs without a transaction, so a
throw keeps every write made before it (here all throws happen before the
first write).  `minted` is the would-be fresh session id, `gemini` the LLM
network oracle. -/
def processMessage (st : Store) (request : ChatRequest) (minted : String)
    (gemini : Except String String) : Except String ChatResponse × Store :=
  match validateMessage request.message with
  | .error e => (.error e, st)
  | .ok () =>
    match getOrCreateConversation st request.sessionId minted with
    | .error e => (.error e, st)
    | .ok (conversation, st0) =>
      let (_userMessage, st1) :=
        messageCreate st0 conversation.id .user request.message
      let history := getConversationHistory st1 conversation.id
      let llmResponse := llmResponseOrFallback
        (LLMService.generateReply request.message history gemini)
      let (aiMessage, st2) :=
        messageCreate st1 conversation.id .ai llmResponse.content
      let st3 := conversationUpdateTimestamp st2 conversation.id
      (.ok { reply := llmResponse.content, sessionId := conversation.sessionId,
             messageId := aiMessage.id, conversationId := conversation.id }, st3)

/-- The health report of `getHealth`: only the database is probed
(`SELECT 1`); the `llm` field is the literal `'healthy'` on the success path
and `'unknown'` on the failure path, with no LLM-backend probe at all. -/
structure HealthReport where
  database : String
  llm : String
deriving DecidableEq

/-- The `getHealth` method as a function of database reachability alone: the
method has no input describing the LLM backend. -/
def getHealth (dbReachable : Bool) : HealthReport :=
  if dbReachable then { database := "healthy", llm := "healthy" }
  else { database := "unhealthy", llm := "unknown" }

end ChatService

namespace ChatController

/-- The `healthCheck` handler: `isHealthy` when both report fields are
`'healthy'`; HTTP 200 when healthy, 503 otherwise. -/
def healthCheckStatusCode (dbReachable : Bool) : Nat :=
  let health := ChatService.getHealth dbReachable
  if health.database = "healthy" && health.llm = "healthy" then 200 else 503

end ChatController

namespace Middleware

/-- The `validateMessage` Express middleware
(src/middleware/validation.middleware.ts): trim, reject empty and over-5000
texts, then sanitize by replacing every angle bracket with its HTML entity and
capping the result at 5000 characters.  On success the sanitized text replaces
`req.body.message`, which is what `processMessage` later receives. -/
def validateMessage (message : String) : Except String String :=
  let trimmedMessage := jsTrim message
  if trimmedMessage.length = 0 then
    .error "Message cannot be empty or whitespace only"
  else if trimmedMessage.length > 5000 then
    .error "Message is too long. Maximum 5000 characters allowed."
  else
    .ok (jsSubstringTo
      (replaceAllChar (replaceAllChar trimmedMessage '<' "&lt;") '>' "&gt;")
      5000)

end Middleware

/-! Claim-side definitions: renderings of what the specification says, to be
compared with the embedded code, together with store invariants and the
concrete stores used by witnesses and counterexamples. -/

/-- The spec's rendering of a transcript: one line per entry, the sender label,
a colon, the text and a newline. -/
def transcriptOf : List MessageHistory → String
  | [] => ""
  | m :: rest =>
    LLMService.roleLabel m.sender ++ ": " ++ m.text ++ "\n" ++ transcriptOf rest

/-- Texts of a history list, for readable counterexamples. -/
def historyTexts (l : List MessageHistory) : List String :=
  l.map (fun h => h.text)

/-- Modelled from the spec: the health status code the specification mandates
(`HTTP 200 if both healthy, else 503`), as a function of the reachability of
the store and of the LLM backend.  To be compared with the code's
`healthCheckStatusCode`, which has no LLM-backend input. -/
def specHealthStatus (dbReachable llmReachable : Bool) : Nat :=
  if dbReachable && llmReachable then 200 else 503

/-- Invariant: a sessionId identifies at most one conversation. -/
def sessionUnique (st : Store) : Prop :=
  st.conversations.Pairwise (fun a b => a.sessionId ≠ b.sessionId)

/-- Invariant: stored messages are in strictly ascending createdAt order (the
stored order is the creation order). -/
def messagesTimeOrdered (st : Store) : Prop :=
  st.messages.Pairwise (fun a b => a.createdAt < b.createdAt)

/-- The empty store. -/
def emptyStore : Store :=
  { conversations := [], messages := [], nextId := 0, now := 0 }

/-- A fixed conversation used by concrete runs. -/
def conv1 : Conversation :=
  { id := 0, sessionId := "s1", createdAt := 0, updatedAt := 0,
    metadata := ChatService.conversationMetadataText }

/-- A store holding exactly `conv1` and no messages. -/
def oneConvStore : Store :=
  { conversations := [conv1], messages := [], nextId := 1, now := 1 }

/-- The i-th message (1-based text `m(i+1)`) of the eleven-message store. -/
def msgNo (i : Nat) : Message :=
  { id := i + 1, conversationId := 0, sender := Sender.user,
    text := "m" ++ toString (i + 1), createdAt := i + 1 }

/-- A store whose single conversation holds eleven messages `m1` … `m11`. -/
def elevenStore : Store :=
  { conversations := [conv1], messages := (List.range 11).map msgNo,
    nextId := 13, now := 13 }

/-- The conversation row that `conversationCreate st sid` appends on success. -/
def createdConversation (st : Store) (sid : String) : Conversation :=
  { id := st.nextId, sessionId := sid, createdAt := st.now,
    updatedAt := st.now, metadata := ChatService.conversationMetadataText }

/-- The store left by a successful `conversationCreate st sid`. -/
def storeAfterCreate (st : Store) (sid : String) : Store :=
  { conversations := st.conversations ++ [createdConversation st sid],
    messages := st.messages, nextId := st.nextId + 1, now := st.now + 1 }

/-! Helper lemmas. -/

/-- A successful `conversationCreate` appends exactly the described row, and
only runs when the sessionId was free. -/
lemma conversationCreate_ok {st : Store} {sid : String} {c : Conversation}
    {st2 : Store} (h : ChatService.conversationCreate st sid = .ok (c, st2)) :
    c = createdConversation st sid ∧ st2 = storeAfterCreate st sid ∧
    ∀ x ∈ st.conversations, ¬ x.sessionId = sid := by
  unfold ChatService.conversationCreate at h
  split at h
  · exact absurd h (by simp)
  · next hany =>
    simp only [Except.ok.injEq, Prod.mk.injEq] at h
    refine ⟨h.1.symm, h.2.symm, ?_⟩
    intro x hx hsid
    exact hany (List.any_eq_true.mpr ⟨x, hx, by simp [hsid]⟩)

/-- Shape of a successful `getOrCreateConversation`: either an existing row is
reused and the store is untouched, or a fresh row with a previously-unused
sessionId is appended. -/
lemma getOrCreate_ok {st : Store} {sid? : Option String} {minted : String}
    {c : Conversation} {st2 : Store}
    (h : ChatService.getOrCreateConversation st sid? minted = .ok (c, st2)) :
    (st2 = st ∧ c ∈ st.conversations) ∨
    (∃ sid, c = createdConversation st sid ∧ st2 = storeAfterCreate st sid ∧
      ∀ x ∈ st.conversations, ¬ x.sessionId = sid) := by
  unfold ChatService.getOrCreateConversation at h
  cases htr : ChatService.truthyString sid? with
  | none =>
    simp only [htr] at h
    exact Or.inr ⟨minted, conversationCreate_ok h⟩
  | some sid =>
    simp only [htr] at h
    cases hfind : ChatService.findUniqueConversation st sid with
    | some cFound =>
      simp only [hfind, Except.ok.injEq, Prod.mk.injEq] at h
      refine Or.inl ⟨h.2.symm, ?_⟩
      rw [← h.1]
      exact List.mem_of_find?_eq_some hfind
    | none =>
      simp only [hfind] at h
      exact Or.inr ⟨sid, conversationCreate_ok h⟩

/-- A successful `getOrCreateConversation` never touches the message table. -/
lemma getOrCreate_messages {st : Store} {sid? : Option String} {minted : String}
    {c : Conversation} {st2 : Store}
    (h : ChatService.getOrCreateConversation st sid? minted = .ok (c, st2)) :
    st2.messages = st.messages := by
  rcases getOrCreate_ok h with ⟨rfl, -⟩ | ⟨sid, -, rfl, -⟩
  · rfl
  · rfl


/-- The transcript foldl of `buildPrompt` appends the rendered lines to its
initial accumulator. -/
lemma foldl_transcript (l : List MessageHistory) (init : String) :
    l.foldl
      (fun acc msg => acc ++ LLMService.roleLabel msg.sender ++ ": " ++
        msg.text ++ "\n") init = init ++ transcriptOf l := by
  induction l generalizing init with
  | nil => simp [transcriptOf]
  | cons a t ih =>
    simp only [List.foldl_cons, transcriptOf, ih]
    simp [String.append_assoc]

/-! Theorems for the claims. -/

/-- C5 (code bug): with the database reachable and the LLM backend unreachable,
`getHealth` still reports `llm: 'healthy'` and the `healthCheck` handler
returns HTTP 200, while the claim (and the backend README's "Health Checks:
LLM API availability") require the llm status to reflect LLM-backend
reachability and a 503 when it is down.  The code's health report is a
function of database reachability alone: it has no LLM-backend input. -/
theorem C5_health_ignores_llm :
    ChatService.getHealth true = { database := "healthy", llm := "healthy" } ∧
    ChatController.healthCheckStatusCode true = 200 ∧
    specHealthStatus true false = 503 ∧
    specHealthStatus true true = 200 ∧
    ChatService.getHealth false = { database := "unhealthy", llm := "unknown" } ∧
    ChatController.healthCheckStatusCode false = 503 := by
  refine ⟨by decide, by decide, by decide, by decide, by decide, by decide⟩

/-- C6: for every history and current text, the prompt is the concatenation of
the fixed knowledge/persona block, a transcript block rendering exactly the
last up-to-5 supplied history entries labeled `Customer`/`Support Agent` by
sender, and the final instruction line embedding the current question, the
current text being truncated to 2000 characters with an ellipsis marker
appended exactly when it exceeds 2000. -/
theorem C6_prompt_structure (history : List MessageHistory) (text : String) :
    LLMService.promptFor history text =
      LLMService.getStoreKnowledge ++
        (if history = [] then ""
         else "\n\nCONVERSATION HISTORY:\n" ++
           transcriptOf (LLMService.sliceLast 5 history)) ++
        ("\n\nCURRENT CUSTOMER QUESTION: \"" ++ LLMService.truncateMessage text ++
         "\"\n\nProvide a helpful response based ONLY on the store knowledge above.") ∧
    (LLMService.sliceLast 5 history).length = min 5 history.length ∧
    history.take (history.length - 5) ++ LLMService.sliceLast 5 history = history ∧
    LLMService.roleLabel Sender.user = "Customer" ∧
    LLMService.roleLabel Sender.ai = "Support Agent" ∧
    LLMService.truncateMessage text =
      (if 2000 < text.length then jsSubstringTo text 2000 ++ "..." else text) ∧
    (jsSubstringTo text 2000).length = min 2000 text.length := by
  refine ⟨?_, ?_, ?_, rfl, rfl, rfl, ?_⟩
  · by_cases hh : history = []
    · simp [hh, LLMService.promptFor, LLMService.buildPrompt,
        String.append_assoc]
    · have hlen : 0 < history.length := List.length_pos.mpr hh
      simp only [LLMService.promptFor, LLMService.buildPrompt, hlen, if_pos,
        gt_iff_lt, foldl_transcript, hh, if_neg]
      simp [hh, String.append_assoc]
  · simp only [LLMService.sliceLast, List.length_drop]
    omega
  · exact List.take_append_drop _ _
  · simp only [jsSubstringTo, String.length, List.length_take]

/-- C7: every failure message is classified into exactly three buckets
(auth/key, rate/quota, all others), each mapped to its own distinct
user-facing string; a provider failure surfaces as the classified string, and
an empty backend response is raised as an error exactly like any other
failure, landing in the third bucket. -/
theorem C7_error_classification (e msg : String) (history : List MessageHistory) :
    (LLMService.classifyFailure e =
        "AI service is currently unavailable. Please try again later." ∨
      LLMService.classifyFailure e =
        "We're experiencing high demand. Please wait a moment." ∨
      LLMService.classifyFailure e =
        "Unable to generate response. Please try again.") ∧
    ("AI service is currently unavailable. Please try again later." ≠
        "We're experiencing high demand. Please wait a moment." ∧
      "AI service is currently unavailable. Please try again later." ≠
        "Unable to generate response. Please try again." ∧
      "We're experiencing high demand. Please wait a moment." ≠
        "Unable to generate response. Please try again.") ∧
    ((jsTrim msg).length ≠ 0 →
      LLMService.generateReply msg history (Except.error e) =
        .error (LLMService.classifyFailure e)) ∧
    LLMService.generateReply msg history (Except.ok "") =
      .error "Unable to generate response. Please try again." := by
  refine ⟨?_, by decide, ?_, ?_⟩
  · unfold LLMService.classifyFailure
    split
    · exact Or.inl rfl
    · split
      · exact Or.inr (Or.inl rfl)
      · exact Or.inr (Or.inr rfl)
  · intro h
    simp [LLMService.generateReply, h, LLMService.provider,
      LLMService.generateWithGemini]
  · by_cases h : (jsTrim msg).length = 0
    · have : LLMService.generateReply msg history (Except.ok "") =
          .error (LLMService.classifyFailure "Message cannot be empty") := by
        simp [LLMService.generateReply, h]
      rw [this]
      exact congrArg Except.error (by decide)
    · have : LLMService.generateReply msg history (Except.ok "") =
          .error (LLMService.classifyFailure "Empty response from Gemini") := by
        simp [LLMService.generateReply, h, LLMService.provider,
          LLMService.generateWithGemini]
      rw [this]
      exact congrArg Except.error (by decide)

/-- Witness for C7 at a concrete rate-limit failure. -/
theorem C7_witness :
    (jsTrim "Hi").length ≠ 0 ∧
    LLMService.generateReply "Hi" [] (Except.error "quota exceeded") =
      .error "We're experiencing high demand. Please wait a moment." := by
  refine ⟨by decide, ?_⟩
  have h := (C7_error_classification "quota exceeded" "Hi" []).2.2.1 (by decide)
  rw [h]
  exact congrArg Except.error (by decide)

/-- C1 (counterexample): the claim says that when the supplied sessionId
matches no existing conversation, the new conversation gets a freshly minted
identifier, not the caller-supplied one.  On the empty store with the unknown
supplied sessionId `sess_known_to_caller` and minted identifier
`session_1735516800000_fresh`, the code (line 110:
`sessionId || session_${Date.now()}_...`) creates the conversation with the
CALLER-SUPPLIED sessionId. -/
theorem C1_counterexample :
    ChatService.getOrCreateConversation emptyStore (some "sess_known_to_caller")
        "session_1735516800000_fresh" =
      Except.ok (createdConversation emptyStore "sess_known_to_caller",
        storeAfterCreate emptyStore "sess_known_to_caller") ∧
    (createdConversation emptyStore "sess_known_to_caller").sessionId =
      "sess_known_to_caller" ∧
    (createdConversation emptyStore "sess_known_to_caller").sessionId ≠
      "session_1735516800000_fresh" := by
  refine ⟨by decide, by decide, by decide⟩

/-- C1 (amended): a supplied sessionId matching an existing conversation
reuses it (same conversation, store untouched, and `processMessage` returns
its conversationId); a supplied non-empty sessionId matching no conversation
creates a new conversation whose sessionId is the CALLER-SUPPLIED one; only
when no (or an empty) sessionId is supplied does the new conversation get the
freshly minted identifier. -/
theorem C1_session_resolution (st : Store) (sid minted : String)
    (c : Conversation) :
    (sid ≠ "" → ChatService.findUniqueConversation st sid = some c →
      ChatService.getOrCreateConversation st (some sid) minted = .ok (c, st)) ∧
    (sid ≠ "" → ChatService.findUniqueConversation st sid = none →
      ChatService.getOrCreateConversation st (some sid) minted =
        .ok (createdConversation st sid, storeAfterCreate st sid) ∧
      (createdConversation st sid).sessionId = sid) ∧
    (ChatService.getOrCreateConversation st none minted =
        ChatService.conversationCreate st minted ∧
      (createdConversation st minted).sessionId = minted) ∧
    (∀ (msg : String) (gemini : Except String String) (r : ChatResponse)
        (st' : Store), sid ≠ "" →
      ChatService.findUniqueConversation st sid = some c →
      ChatService.processMessage st { message := msg, sessionId := some sid }
          minted gemini = (.ok r, st') →
      r.conversationId = c.id ∧ r.sessionId = c.sessionId) := by
  have htr : ChatService.truthyString (some sid) =
      (if sid = "" then none else some sid) := rfl
  refine ⟨?_, ?_, ⟨rfl, rfl⟩, ?_⟩
  · intro hne hfind
    unfold ChatService.getOrCreateConversation
    rw [htr, if_neg hne]
    simp only [hfind]
  · intro hne hfind
    refine ⟨?_, rfl⟩
    have hany : (st.conversations.any fun x => decide (x.sessionId = sid)) =
        false := by
      rw [List.any_eq_false]
      intro x hx
      have := List.find?_eq_none.mp hfind x hx
      simpa using this
    unfold ChatService.getOrCreateConversation ChatService.conversationCreate
    rw [htr, if_neg hne]
    simp only [hfind, hany, Bool.false_eq_true, if_false]
    rfl
  · intro msg gemini r st' hne hfind hpm
    have hgc : ChatService.getOrCreateConversation st (some sid) minted =
        .ok (c, st) := by
      unfold ChatService.getOrCreateConversation
      rw [htr, if_neg hne]
      simp only [hfind]
    unfold ChatService.processMessage at hpm
    cases hv : ChatService.validateMessage msg with
    | error e =>
      simp only [hv] at hpm
      exact absurd (congrArg Prod.fst hpm) (by simp)
    | ok u =>
      cases u
      simp only [hv, hgc, Prod.mk.injEq, Except.ok.injEq] at hpm
      rw [← hpm.1]
      exact ⟨rfl, rfl⟩

/-- Witness for C1 at concrete stores: reuse of the known `s1`, and creation
with the caller-supplied `s2` when unknown. -/
theorem C1_witness :
    ChatService.getOrCreateConversation oneConvStore (some "s1") "m1" =
      .ok (conv1, oneConvStore) ∧
    (ChatService.getOrCreateConversation emptyStore (some "s2") "m1" =
        .ok (createdConversation emptyStore "s2",
          storeAfterCreate emptyStore "s2") ∧
      (createdConversation emptyStore "s2").sessionId = "s2") := by
  refine ⟨(C1_session_resolution oneConvStore "s1" "m1" conv1).1 (by decide)
    (by decide), (C1_session_resolution emptyStore "s2" "m1" conv1).2.1
    (by decide) (by decide)⟩

/-- C2 (counterexample): on a conversation holding eleven messages `m1`…`m11`
the history read back by `getConversationHistory` (prisma
`orderBy createdAt asc, take 10`) is the FIRST ten messages `m1`…`m10`, not
the last ten `m2`…`m11` the claim demands. -/
theorem C2_counterexample :
    (ChatService.conversationMessages elevenStore 0).length = 11 ∧
    historyTexts (ChatService.getConversationHistory elevenStore 0) =
      ["m1", "m2", "m3", "m4", "m5", "m6", "m7", "m8", "m9", "m10"] ∧
    historyTexts (ChatService.getConversationHistory elevenStore 0) ≠
      ["m2", "m3", "m4", "m5", "m6", "m7", "m8", "m9", "m10", "m11"] := by
  refine ⟨by decide, by decide, by decide⟩

/-- C2 (amended): the history passed to the prompt builder is the EARLIEST
up-to-10 messages of the conversation, in ascending createdAt order; it never
exceeds 10 entries, and every message of the conversation left out of it is
strictly later than every entry in it. -/
theorem C2_history_window (st : Store) (cid : Nat)
    (h : messagesTimeOrdered st) :
    (ChatService.getConversationHistory st cid).length ≤ 10 ∧
    (ChatService.getConversationHistory st cid).Pairwise
      (fun a b => a.createdAt < b.createdAt) ∧
    ∃ rest, (ChatService.conversationMessages st cid).map msgToHistory =
        ChatService.getConversationHistory st cid ++ rest ∧
      ∀ x ∈ ChatService.getConversationHistory st cid, ∀ y ∈ rest,
        x.createdAt < y.createdAt := by
  have hl : (ChatService.conversationMessages st cid).Pairwise
      (fun a b => a.createdAt < b.createdAt) :=
    List.Pairwise.sublist (List.filter_sublist _) h
  have hsplit : (ChatService.conversationMessages st cid).take 10 ++
      (ChatService.conversationMessages st cid).drop 10 =
      ChatService.conversationMessages st cid :=
    List.take_append_drop _ _
  have hcross := (List.pairwise_append.mp (hsplit ▸ hl)).2.2
  refine ⟨?_, ?_, (ChatService.conversationMessages st cid).drop 10 |>.map
    msgToHistory, ?_, ?_⟩
  · simp only [ChatService.getConversationHistory, List.length_map,
      List.length_take]
    exact inf_le_left
  · exact List.Pairwise.map msgToHistory (fun a b hab => hab)
      (List.Pairwise.sublist (List.take_sublist _ _) hl)
  · rw [ChatService.getConversationHistory, ← List.map_append, hsplit]
  · intro x hx y hy
    rcases List.mem_map.mp hx with ⟨a, ha, rfl⟩
    rcases List.mem_map.mp hy with ⟨b, hb, rfl⟩
    exact hcross a ha b hb

/-- Witness for C2 at the eleven-message store. -/
theorem C2_witness :
    messagesTimeOrdered elevenStore ∧
    (ChatService.getConversationHistory elevenStore 0).length ≤ 10 ∧
    (ChatService.getConversationHistory elevenStore 0).Pairwise
      (fun a b => a.createdAt < b.createdAt) := by
  have ho : messagesTimeOrdered elevenStore := by
    show elevenStore.messages.Pairwise (fun a b => a.createdAt < b.createdAt)
    decide
  exact ⟨ho, (C2_history_window elevenStore 0 ho).1,
    (C2_history_window elevenStore 0 ho).2.1⟩

/-- C4 (counterexample): a 5001-character whitespace-only text is longer than
5000 characters, yet `validateMessage` rejects it with the distinct "empty"
error, not the "too long" one, because the emptiness check runs first. -/
theorem C4_counterexample :
    (String.mk (List.replicate 5001 ' ')).length > 5000 ∧
    ChatService.validateMessage (String.mk (List.replicate 5001 ' ')) =
      .error "Message cannot be empty" ∧
    "Message cannot be empty" ≠
      "Message is too long. Please limit to 5000 characters." := by
  have hdrop : ∀ n : Nat,
      (List.replicate n ' ').dropWhile isWhitespaceChar = [] := by
    intro n
    induction n with
    | zero => rfl
    | succ m ih =>
      rw [List.replicate_succ, List.dropWhile_cons, if_pos (by decide)]
      exact ih
  have htrim : jsTrim (String.mk (List.replicate 5001 ' ')) = "" := by
    show String.mk _ = ""
    rw [show (String.mk (List.replicate 5001 ' ')).data =
      List.replicate 5001 ' ' from rfl, hdrop]
    rfl
  refine ⟨?_, ?_, by decide⟩
  · show 5000 < (List.replicate 5001 ' ').length
    rw [List.length_replicate]
    omega
  · unfold ChatService.validateMessage
    rw [htrim]
    rfl

/-- C4 (amended): every text that trims to empty fails with the distinct
"empty" error; every text longer than 5000 characters that does NOT trim to
empty fails with the distinct "too long" error; in either case
`processMessage` returns the error with the store unchanged — no message
persisted, no conversation created. -/
theorem C4_validation (st : Store) (text minted : String)
    (sid : Option String) (gemini : Except String String) :
    (jsTrim text = "" →
      ChatService.processMessage st { message := text, sessionId := sid }
          minted gemini = (.error "Message cannot be empty", st)) ∧
    (jsTrim text ≠ "" → text.length > 5000 →
      ChatService.processMessage st { message := text, sessionId := sid }
          minted gemini =
        (.error "Message is too long. Please limit to 5000 characters.", st)) ∧
    "Message cannot be empty" ≠
      "Message is too long. Please limit to 5000 characters." := by
  refine ⟨?_, ?_, by decide⟩
  · intro h
    have hv : ChatService.validateMessage text =
        .error "Message cannot be empty" := by
      unfold ChatService.validateMessage
      rw [h]
      rfl
    simp [ChatService.processMessage, hv]
  · intro h1 h2
    have hlen : ¬ (jsTrim text).length = 0 := by
      intro h0
      apply h1
      cases hjs : jsTrim text with
      | mk data =>
        rw [hjs] at h0
        rw [List.length_eq_zero.mp h0]
    have hv : ChatService.validateMessage text =
        .error "Message is too long. Please limit to 5000 characters." := by
      unfold ChatService.validateMessage
      rw [if_neg hlen, if_pos h2]
    simp [ChatService.processMessage, hv]

/-- A 5001-character non-whitespace text, for the C4 witness. -/
def longAText : String := String.mk (List.replicate 5001 'a')

/-- Witness for C4: a whitespace-only text and a 5001-character text, each run
through `processMessage` on the empty store. -/
theorem C4_witness :
    jsTrim " " = "" ∧
    ChatService.processMessage emptyStore { message := " ", sessionId := none }
        "m1" (.ok "r") = (.error "Message cannot be empty", emptyStore) ∧
    jsTrim longAText ≠ "" ∧ longAText.length > 5000 ∧
    ChatService.processMessage emptyStore
        { message := longAText, sessionId := none } "m1" (.ok "r") =
      (.error "Message is too long. Please limit to 5000 characters.",
        emptyStore) := by
  have h1 : jsTrim longAText ≠ "" := by
    have hd : (List.replicate 5001 'a').dropWhile isWhitespaceChar =
        List.replicate 5001 'a' := by
      have h51 : (5001 : Nat) = 5000 + 1 := by norm_num
      rw [h51, List.replicate_succ, List.dropWhile_cons, if_neg (by decide)]
    intro hc
    have : (jsTrim longAText).length = 0 := by rw [hc]; rfl
    rw [show jsTrim longAText = String.mk
      (((List.replicate 5001 'a').dropWhile isWhitespaceChar).reverse.dropWhile
        isWhitespaceChar).reverse from rfl, hd, List.reverse_replicate, hd,
      List.reverse_replicate] at this
    rw [show (String.mk (List.replicate 5001 'a')).length =
      (List.replicate 5001 'a').length from rfl, List.length_replicate] at this
    omega
  have h2 : longAText.length > 5000 := by
    show 5000 < (List.replicate 5001 'a').length
    rw [List.length_replicate]
    omega
  exact ⟨by decide, (C4_validation emptyStore " " "m1" none (.ok "r")).1
    (by decide), h1, h2,
    (C4_validation emptyStore longAText "m1" none (.ok "r")).2.1 h1 h2⟩

/-- Whatever the history and the message, when the network oracle throws, the
try/catch around `generateReply` yields the fallback response. -/
lemma llmFallback_of_error (msg : String) (hist : List MessageHistory)
    (e : String) :
    ChatService.llmResponseOrFallback
        (LLMService.generateReply msg hist (.error e)) =
      ChatService.fallbackResponse := by
  by_cases h : (jsTrim msg).length = 0 <;>
    simp [LLMService.generateReply, h, LLMService.provider,
      LLMService.generateWithGemini, ChatService.llmResponseOrFallback]

/-- C3: if the LLM call throws — whatever the error — `processMessage` still
succeeds: the reply is the fixed fallback string, the fallback itself is
persisted as the AI message, the conversation advances by exactly two messages
(USER then AI), and the outcome is independent of the underlying LLM error, so
the caller never observes it. -/
theorem C3_llm_failure (st : Store) (req : ChatRequest) (minted e : String)
    (conv : Conversation) (st0 : Store)
    (hv : ChatService.validateMessage req.message = .ok ())
    (hc : ChatService.getOrCreateConversation st req.sessionId minted =
      .ok (conv, st0)) :
    ∃ um am st',
      ChatService.processMessage st req minted (.error e) =
        (.ok { reply := ChatService.fallbackText, sessionId := conv.sessionId,
               messageId := am.id, conversationId := conv.id }, st') ∧
      st'.messages = st.messages ++ [um, am] ∧
      um.sender = .user ∧ um.text = req.message ∧
      am.sender = .ai ∧ am.text = ChatService.fallbackText ∧
      (ChatService.conversationMessages st' conv.id).length =
        (ChatService.conversationMessages st conv.id).length + 2 ∧
      ∀ e2 : String, ChatService.processMessage st req minted (.error e2) =
        ChatService.processMessage st req minted (.error e) := by
  have hmsg : st0.messages = st.messages := getOrCreate_messages hc
  have key : ∀ e' : String,
      ChatService.processMessage st req minted (.error e') =
        (.ok { reply := ChatService.fallbackText, sessionId := conv.sessionId,
               messageId := st0.nextId + 1, conversationId := conv.id },
         ChatService.conversationUpdateTimestamp
           (ChatService.messageCreate
             (ChatService.messageCreate st0 conv.id .user req.message).2
             conv.id .ai ChatService.fallbackText).2 conv.id) := by
    intro e'
    unfold ChatService.processMessage
    simp only [hv, hc, llmFallback_of_error]
    rfl
  refine ⟨(ChatService.messageCreate st0 conv.id .user req.message).1,
    (ChatService.messageCreate
      (ChatService.messageCreate st0 conv.id .user req.message).2
      conv.id .ai ChatService.fallbackText).1,
    ChatService.conversationUpdateTimestamp
      (ChatService.messageCreate
        (ChatService.messageCreate st0 conv.id .user req.message).2
        conv.id .ai ChatService.fallbackText).2 conv.id,
    key e, ?_, rfl, rfl, rfl, rfl, ?_, fun e2 => (key e2).trans (key e).symm⟩
  · simp [ChatService.conversationUpdateTimestamp, ChatService.messageCreate,
      hmsg]
  · simp [ChatService.conversationUpdateTimestamp, ChatService.messageCreate,
      ChatService.conversationMessages, hmsg, List.filter_append]

/-- Witness for C3: a concrete run on the empty store with a throwing LLM. -/
theorem C3_witness :
    ChatService.validateMessage "Hello" = .ok () ∧
    ChatService.getOrCreateConversation emptyStore none "m1" =
      .ok (createdConversation emptyStore "m1",
        storeAfterCreate emptyStore "m1") ∧
    ∃ um am st',
      ChatService.processMessage emptyStore
          { message := "Hello", sessionId := none } "m1" (.error "boom") =
        (.ok { reply := ChatService.fallbackText,
               sessionId := (createdConversation emptyStore "m1").sessionId,
               messageId := am.id,
               conversationId := (createdConversation emptyStore "m1").id },
         st') ∧
      st'.messages = emptyStore.messages ++ [um, am] ∧
      um.sender = .user ∧ um.text = "Hello" ∧
      am.sender = .ai ∧ am.text = ChatService.fallbackText ∧
      (ChatService.conversationMessages st'
          (createdConversation emptyStore "m1").id).length =
        (ChatService.conversationMessages emptyStore
          (createdConversation emptyStore "m1").id).length + 2 ∧
      ∀ e2 : String, ChatService.processMessage emptyStore
          { message := "Hello", sessionId := none } "m1" (.error e2) =
        ChatService.processMessage emptyStore
          { message := "Hello", sessionId := none } "m1" (.error "boom") := by
  exact ⟨by decide, by decide,
    C3_llm_failure emptyStore { message := "Hello", sessionId := none } "m1"
      "boom" (createdConversation emptyStore "m1")
      (storeAfterCreate emptyStore "m1") (by decide) (by decide)⟩

/-- Shape of a successful `processMessage`: the resolved conversation, the two
appended messages and the updatedAt touch, read off the definition. -/
lemma processMessage_ok_shape {st : Store} {req : ChatRequest} {minted : String}
    {gemini : Except String String} {r : ChatResponse} {st' : Store}
    (h : ChatService.processMessage st req minted gemini = (.ok r, st')) :
    ∃ conv st0,
      ChatService.getOrCreateConversation st req.sessionId minted =
        .ok (conv, st0) ∧
      r.conversationId = conv.id ∧ r.sessionId = conv.sessionId ∧
      st'.messages = st.messages ++
        [(ChatService.messageCreate st0 conv.id .user req.message).1,
         (ChatService.messageCreate
           (ChatService.messageCreate st0 conv.id .user req.message).2 conv.id
           .ai r.reply).1] ∧
      st'.conversations = st0.conversations.map
        (fun c => if c.id = conv.id then { c with updatedAt := st0.now + 2 }
          else c) := by
  unfold ChatService.processMessage at h
  cases hv : ChatService.validateMessage req.message with
  | error e =>
    simp only [hv] at h
    exact absurd (congrArg Prod.fst h) (by simp)
  | ok u =>
    cases u
    cases hgc : ChatService.getOrCreateConversation st req.sessionId minted with
    | error e =>
      simp only [hv, hgc] at h
      exact absurd (congrArg Prod.fst h) (by simp)
    | ok p =>
      obtain ⟨conv, st0⟩ := p
      have hmsg : st0.messages = st.messages := getOrCreate_messages hgc
      simp only [hv, hgc, Prod.mk.injEq, Except.ok.injEq] at h
      obtain ⟨hr, hst⟩ := h
      subst hst
      subst hr
      refine ⟨conv, st0, rfl, rfl, rfl, ?_, ?_⟩
      · simp [ChatService.conversationUpdateTimestamp,
          ChatService.messageCreate, hmsg]
      · simp [ChatService.conversationUpdateTimestamp,
          ChatService.messageCreate]

/-- An errored `processMessage` leaves the store exactly as it found it. -/
lemma processMessage_error_state {st : Store} {req : ChatRequest}
    {minted : String} {gemini : Except String String} {e : String} {st' : Store}
    (h : ChatService.processMessage st req minted gemini = (.error e, st')) :
    st' = st := by
  unfold ChatService.processMessage at h
  cases hv : ChatService.validateMessage req.message with
  | error e2 =>
    simp only [hv] at h
    exact (congrArg Prod.snd h).symm
  | ok u =>
    cases u
    cases hgc : ChatService.getOrCreateConversation st req.sessionId minted with
    | error e2 =>
      simp only [hv, hgc] at h
      exact (congrArg Prod.snd h).symm
    | ok p =>
      obtain ⟨conv, st0⟩ := p
      simp only [hv, hgc] at h
      exact absurd (congrArg Prod.fst h) (by simp)

/-- C9: frame condition of a successful `processMessage`: exactly two messages
are appended (USER then AI, both in the returned conversation) and no stored
message is modified or deleted; at most one conversation is created, none is
deleted, and every pre-existing conversation keeps its id, sessionId,
createdAt and metadata — a conversation other than the returned one is left
entirely untouched. -/
theorem C9_frame (st : Store) (req : ChatRequest) (minted : String)
    (gemini : Except String String) (r : ChatResponse) (st' : Store)
    (h : ChatService.processMessage st req minted gemini = (.ok r, st')) :
    (∃ um am, st'.messages = st.messages ++ [um, am] ∧
      um.sender = .user ∧ um.text = req.message ∧ am.sender = .ai ∧
      um.conversationId = r.conversationId ∧
      am.conversationId = r.conversationId) ∧
    st.conversations.length ≤ st'.conversations.length ∧
    st'.conversations.length ≤ st.conversations.length + 1 ∧
    (∀ c ∈ st.conversations, ∃ c' ∈ st'.conversations,
      c'.id = c.id ∧ c'.sessionId = c.sessionId ∧ c'.createdAt = c.createdAt ∧
      c'.metadata = c.metadata) ∧
    (∀ c ∈ st.conversations, c.id ≠ r.conversationId →
      c ∈ st'.conversations) := by
  obtain ⟨conv, st0, hgc, hrid, hrsid, hmsgs, hconvs⟩ := processMessage_ok_shape h
  have hst0 : st0.conversations = st.conversations ∨
      ∃ sid, st0.conversations =
        st.conversations ++ [createdConversation st sid] := by
    rcases getOrCreate_ok hgc with ⟨rfl, -⟩ | ⟨sid, -, rfl, -⟩
    · exact Or.inl rfl
    · exact Or.inr ⟨sid, rfl⟩
  refine ⟨⟨_, _, hmsgs, rfl, rfl, rfl, by rw [hrid]; rfl,
    by rw [hrid]; rfl⟩, ?_, ?_, ?_, ?_⟩
  · rw [hconvs, List.length_map]
    rcases hst0 with heq | ⟨sid, heq⟩ <;> rw [heq] <;> simp
  · rw [hconvs, List.length_map]
    rcases hst0 with heq | ⟨sid, heq⟩ <;> rw [heq] <;> simp
  · intro c hc
    have hc0 : c ∈ st0.conversations := by
      rcases hst0 with heq | ⟨sid, heq⟩ <;> rw [heq]
      · exact hc
      · exact List.mem_append_left _ hc
    refine ⟨if c.id = conv.id then { c with updatedAt := st0.now + 2 } else c,
      ?_, ?_⟩
    · rw [hconvs]
      exact List.mem_map.mpr ⟨c, hc0, rfl⟩
    · by_cases hid : c.id = conv.id <;> simp [hid]
  · intro c hc hne
    have hc0 : c ∈ st0.conversations := by
      rcases hst0 with heq | ⟨sid, heq⟩ <;> rw [heq]
      · exact hc
      · exact List.mem_append_left _ hc
    rw [hconvs]
    refine List.mem_map.mpr ⟨c, hc0, ?_⟩
    rw [if_neg]
    rw [hrid] at hne
    exact hne

/-- Witness for C9: a successful concrete run on the one-conversation store. -/
theorem C9_witness :
    ∃ r st',
      ChatService.processMessage oneConvStore
          { message := "Hi", sessionId := some "s1" } "m2" (.ok "Reply!") =
        (.ok r, st') ∧
      ((∃ um am, st'.messages = oneConvStore.messages ++ [um, am] ∧
        um.sender = .user ∧ um.text = "Hi" ∧ am.sender = .ai ∧
        um.conversationId = r.conversationId ∧
        am.conversationId = r.conversationId) ∧
      oneConvStore.conversations.length ≤ st'.conversations.length ∧
      st'.conversations.length ≤ oneConvStore.conversations.length + 1 ∧
      (∀ c ∈ oneConvStore.conversations, ∃ c' ∈ st'.conversations,
        c'.id = c.id ∧ c'.sessionId = c.sessionId ∧
        c'.createdAt = c.createdAt ∧ c'.metadata = c.metadata) ∧
      (∀ c ∈ oneConvStore.conversations, c.id ≠ r.conversationId →
        c ∈ st'.conversations)) := by
  refine ⟨_, _, rfl, C9_frame oneConvStore
    { message := "Hi", sessionId := some "s1" } "m2" (.ok "Reply!") _ _ ?_⟩
  rfl

/-- A successful `getOrCreateConversation` keeps every existing conversation. -/
lemma getOrCreate_mem {st : Store} {sid? : Option String} {minted : String}
    {c : Conversation} {st2 : Store}
    (h : ChatService.getOrCreateConversation st sid? minted = .ok (c, st2)) :
    ∀ x ∈ st.conversations, x ∈ st2.conversations := by
  rcases getOrCreate_ok h with ⟨rfl, -⟩ | ⟨sid, -, rfl, -⟩
  · exact fun x hx => hx
  · exact fun x hx => List.mem_append_left _ hx

/-- A successful `getOrCreateConversation` preserves sessionId uniqueness. -/
lemma sessionUnique_after_getOrCreate {st : Store} {sid? : Option String}
    {minted : String} {c : Conversation} {st2 : Store} (h : sessionUnique st)
    (hok : ChatService.getOrCreateConversation st sid? minted = .ok (c, st2)) :
    sessionUnique st2 := by
  rcases getOrCreate_ok hok with ⟨rfl, -⟩ | ⟨sid, -, rfl, hfresh⟩
  · exact h
  · show (st.conversations ++ [createdConversation st sid]).Pairwise _
    rw [List.pairwise_append]
    refine ⟨h, List.pairwise_singleton _ _, ?_⟩
    intro a ha b hb
    rcases List.mem_singleton.mp hb with rfl
    exact hfresh a ha

/-- The updatedAt touch keeps every conversation's sessionId, so it preserves
sessionId uniqueness. -/
lemma sessionUnique_map_touch {l : List Conversation} {cid t : Nat}
    (h : l.Pairwise (fun a b => a.sessionId ≠ b.sessionId)) :
    (l.map (fun c => if c.id = cid then { c with updatedAt := t } else c)).Pairwise
      (fun a b => a.sessionId ≠ b.sessionId) := by
  refine List.Pairwise.map _ ?_ h
  intro a b hab
  by_cases ha : a.id = cid <;> by_cases hb : b.id = cid <;> simp [ha, hb, hab]

/-- C8: the invariant "a sessionId identifies at most one conversation" is
preserved by `getOrCreateConversation` (which never creates a second
conversation for a sessionId that already has one) and by every
`processMessage` call, successful or not; moreover no operation changes an
existing conversation's sessionId. -/
theorem C8_sessionId_unique (st : Store) (req : ChatRequest) (minted : String)
    (gemini : Except String String) (h : sessionUnique st) :
    (∀ (sid? : Option String) (c : Conversation) (st2 : Store),
      ChatService.getOrCreateConversation st sid? minted = .ok (c, st2) →
      sessionUnique st2) ∧
    sessionUnique (ChatService.processMessage st req minted gemini).2 ∧
    ∀ c ∈ st.conversations,
      ∃ c' ∈ (ChatService.processMessage st req minted gemini).2.conversations,
        c'.id = c.id ∧ c'.sessionId = c.sessionId := by
  refine ⟨fun sid? c st2 hok => sessionUnique_after_getOrCreate h hok, ?_, ?_⟩
  · rcases hpm : ChatService.processMessage st req minted gemini with ⟨res, stx⟩
    cases res with
    | error e =>
      have := processMessage_error_state hpm
      simpa [this] using h
    | ok r =>
      obtain ⟨conv, st0, hgc, -, -, -, hconvs⟩ := processMessage_ok_shape hpm
      have h0 : sessionUnique st0 := sessionUnique_after_getOrCreate h hgc
      show stx.conversations.Pairwise _
      rw [hconvs]
      exact sessionUnique_map_touch h0
  · intro c hc
    rcases hpm : ChatService.processMessage st req minted gemini with ⟨res, stx⟩
    cases res with
    | error e =>
      have := processMessage_error_state hpm
      exact ⟨c, by simpa [this] using hc, rfl, rfl⟩
    | ok r =>
      obtain ⟨conv, st0, hgc, -, -, -, hconvs⟩ := processMessage_ok_shape hpm
      have hc0 : c ∈ st0.conversations := getOrCreate_mem hgc c hc
      refine ⟨if c.id = conv.id then { c with updatedAt := st0.now + 2 } else c,
        ?_, ?_, ?_⟩
      · show _ ∈ stx.conversations
        rw [hconvs]
        exact List.mem_map.mpr ⟨c, hc0, rfl⟩
      · by_cases hid : c.id = conv.id <;> simp [hid]
      · by_cases hid : c.id = conv.id <;> simp [hid]

/-- Witness for C8 on the one-conversation store. -/
theorem C8_witness :
    sessionUnique oneConvStore ∧
    sessionUnique (ChatService.processMessage oneConvStore
      { message := "Hi", sessionId := some "s1" } "m2" (.ok "Reply!")).2 := by
  have h : sessionUnique oneConvStore := by
    show oneConvStore.conversations.Pairwise _
    decide
  exact ⟨h, (C8_sessionId_unique oneConvStore
    { message := "Hi", sessionId := some "s1" } "m2" (.ok "Reply!") h).2.1⟩

/-- Character data of a global single-character replacement. -/
lemma data_replaceAllChar (s : String) (c : Char) (rep : String) :
    (replaceAllChar s c rep).data =
      (s.data.map (fun ch => if ch = c then rep.data else [ch])).flatten := by
  unfold replaceAllChar
  rw [String.join_eq]
  show (List.map String.data
    (s.data.map (fun ch => if ch = c then rep else String.mk [ch]))).flatten = _
  rw [List.map_map]
  congr 1
  apply List.map_congr_left
  intro ch _
  by_cases hch : ch = c <;> simp [hch, Function.comp]

/-- Replacing every occurrence of `c` by a replacement free of `c` removes `c`
entirely. -/
lemma not_mem_replaceAllChar_self {s : String} {c : Char} {rep : String}
    (hrep : c ∉ rep.data) : c ∉ (replaceAllChar s c rep).data := by
  rw [data_replaceAllChar]
  intro hmem
  rcases List.mem_flatten.mp hmem with ⟨piece, hpiece, hcp⟩
  rcases List.mem_map.mp hpiece with ⟨ch, hch, rfl⟩
  by_cases h : ch = c
  · rw [if_pos h] at hcp
    exact hrep hcp
  · rw [if_neg h] at hcp
    exact h (List.mem_singleton.mp hcp).symm

/-- A character absent from both the string and the replacement stays absent
after the replacement. -/
lemma not_mem_replaceAllChar_other {s : String} {c c2 : Char} {rep : String}
    (hs : c2 ∉ s.data) (hrep : c2 ∉ rep.data) :
    c2 ∉ (replaceAllChar s c rep).data := by
  rw [data_replaceAllChar]
  intro hmem
  rcases List.mem_flatten.mp hmem with ⟨piece, hpiece, hcp⟩
  rcases List.mem_map.mp hpiece with ⟨ch, hch, rfl⟩
  by_cases h : ch = c
  · rw [if_pos h] at hcp
    exact hrep hcp
  · rw [if_neg h] at hcp
    rcases List.mem_singleton.mp hcp with rfl
    exact hs hch

/-- Every character of a trimmed string comes from the original string. -/
lemma mem_of_mem_jsTrim {s : String} {c : Char} (h : c ∈ (jsTrim s).data) :
    c ∈ s.data := by
  unfold jsTrim at h
  rw [show (String.mk ((((s.data.dropWhile isWhitespaceChar).reverse.dropWhile
      isWhitespaceChar).reverse))).data = (((s.data.dropWhile
      isWhitespaceChar).reverse.dropWhile isWhitespaceChar).reverse) from rfl,
    List.mem_reverse] at h
  have h2 := (List.dropWhile_sublist _).subset h
  rw [List.mem_reverse] at h2
  exact (List.dropWhile_sublist _).subset h2

/-- Successful middleware validation returns exactly the trimmed, entity-
escaped, capped text. -/
lemma middleware_ok_shape {raw s : String}
    (h : Middleware.validateMessage raw = .ok s) :
    s = jsSubstringTo
      (replaceAllChar (replaceAllChar (jsTrim raw) '<' "&lt;") '>' "&gt;")
      5000 := by
  unfold Middleware.validateMessage at h
  simp only [] at h
  split at h
  · cases h
  · split at h
    · cases h
    · cases h
      rfl

/-- C10: the middleware trims the client text, replaces every `<` with `&lt;`
and every `>` with `&gt;`, and caps the result at 5000 characters before
`processMessage` runs; hence for every client input containing an angle
bracket, the message that gets persisted as the USER message and embedded into
the prompt contains no angle bracket at all and differs from what the client
sent — and so do its further controller trim and its prompt-builder
truncation. -/
theorem C10_sanitization (raw s : String)
    (hc : '<' ∈ raw.data ∨ '>' ∈ raw.data)
    (hok : Middleware.validateMessage raw = .ok s) :
    ('<' ∉ s.data ∧ '>' ∉ s.data) ∧ s ≠ raw ∧ jsTrim s ≠ raw ∧
    LLMService.truncateMessage s ≠ raw := by
  have hshape := middleware_ok_shape hok
  have hlt : '<' ∉ s.data := by
    rw [hshape]
    intro hmem
    have hmem2 := List.mem_of_mem_take hmem
    exact not_mem_replaceAllChar_other
      (not_mem_replaceAllChar_self (by decide)) (by decide) hmem2
  have hgt : '>' ∉ s.data := by
    rw [hshape]
    intro hmem
    have hmem2 := List.mem_of_mem_take hmem
    exact not_mem_replaceAllChar_self (by decide) hmem2
  have hne : ∀ t : String, '<' ∉ t.data → '>' ∉ t.data → t ≠ raw := by
    intro t h1 h2 heq
    rcases hc with hin | hin
    · exact h1 (heq ▸ hin)
    · exact h2 (heq ▸ hin)
  have htrimlt : '<' ∉ (jsTrim s).data := fun hm => hlt (mem_of_mem_jsTrim hm)
  have htrimgt : '>' ∉ (jsTrim s).data := fun hm => hgt (mem_of_mem_jsTrim hm)
  have htrunclt : '<' ∉ (LLMService.truncateMessage s).data := by
    unfold LLMService.truncateMessage
    split
    · rw [String.data_append]
      intro hm
      rcases List.mem_append.mp hm with hm | hm
      · exact hlt (List.mem_of_mem_take hm)
      · exact absurd hm (by decide)
    · exact hlt
  have htruncgt : '>' ∉ (LLMService.truncateMessage s).data := by
    unfold LLMService.truncateMessage
    split
    · rw [String.data_append]
      intro hm
      rcases List.mem_append.mp hm with hm | hm
      · exact hgt (List.mem_of_mem_take hm)
      · exact absurd hm (by decide)
    · exact hgt
  exact ⟨⟨hlt, hgt⟩, hne s hlt hgt, hne _ htrimlt htrimgt,
    hne _ htrunclt htruncgt⟩

/-- Witness for C10 at the concrete client input `a<b>c`. -/
theorem C10_witness :
    ('<' ∈ "a<b>c".data ∨ '>' ∈ "a<b>c".data) ∧
    Middleware.validateMessage "a<b>c" = .ok "a&lt;b&gt;c" ∧
    (('<' ∉ "a&lt;b&gt;c".data ∧ '>' ∉ "a&lt;b&gt;c".data) ∧
      "a&lt;b&gt;c" ≠ "a<b>c" ∧ jsTrim "a&lt;b&gt;c" ≠ "a<b>c" ∧
      LLMService.truncateMessage "a&lt;b&gt;c" ≠ "a<b>c") := by
  refine ⟨Or.inl (by decide), by decide,
    C10_sanitization "a<b>c" "a&lt;b&gt;c" (Or.inl (by decide)) (by decide)⟩
